import Mathlib

/-!
Verification of the WipsherGUI coordination layer (src/main.py) against its
natural-language specification.  The Python source is shallowly embedded:
pure computations become Lean functions, the effects of the external world
(ffmpeg presence, transcode exit status, CUDA availability, whisper load
success, recognizer output, interrupt timing) become explicit parameters,
and the GUI threads' `run` methods become functions from those parameters to
the list of Qt signal emissions they produce.
-/

namespace Wipsher

/-- The fixed list of model identifiers (`ALL_MODELS` in main.py). -/
def ALL_MODELS : List String := ["tiny", "base", "small", "medium", "large"]

/-! ## Format Normalizer: `convert_file_if_needed` -/

/-- Characters after the last `.` of the final path component, or `none` when
that component has no dot.  Helper for the model of Python
`os.path.splitext`. -/
def extAfterLastDot (cs : List Char) : Option (List Char) :=
  cs.foldl
    (fun acc c =>
      if c = '.' then some []
      else if c = '/' then none
      else acc.map (fun e => e ++ [c]))
    none

/-- Model of Python `os.path.splitext` for paths whose final component does
not begin with a dot: splits off the extension starting at the last dot. -/
def splitext (p : String) : String × String :=
  match extAfterLastDot p.data with
  | none => (p, "")
  | some e => (⟨p.data.take (p.data.length - e.length - 1)⟩, ⟨'.' :: e⟩)

/-- Model of Python `str.lower()` on the ASCII extension strings involved
here: lower-case every character. -/
def strLower (s : String) : String :=
  ⟨s.data.map Char.toLower⟩

/-- `audio_ext` list from `convert_file_if_needed`. -/
def audio_ext : List String := [".mp3", ".wav", ".m4a", ".flac"]

/-- `video_ext` list from `convert_file_if_needed`. -/
def video_ext : List String := [".mp4", ".avi", ".mov", ".mkv"]

/-- Observable outcome of `convert_file_if_needed`: a returned path, the
Python value `None`, or a raised `FileNotFoundError` (ffmpeg absent). -/
inductive ConvertResult where
  | ok (path : String)
  | nonePath
  | toolMissing
deriving DecidableEq, Repr

/-- Embedding of `convert_file_if_needed` (main.py lines 66-96).  The
environment enters through `ffmpegOnPath` (whether `shutil.which("ffmpeg")`
finds the tool) and `transcodeSucceeds` (whether the external `ffmpeg -y -i
input output` process exits with status 0; a non-zero exit raises
`CalledProcessError`, caught and turned into `None`). -/
def convert_file_if_needed (ffmpegOnPath : Bool) (transcodeSucceeds : Bool)
    (file_path : String) : ConvertResult :=
  if ffmpegOnPath = false then ConvertResult.toolMissing
  else
    let ext := strLower (splitext file_path).2
    if ext ∈ audio_ext then ConvertResult.ok file_path
    else if ext ∈ video_ext then
      let new_file := (splitext file_path).1 ++ ".wav"
      if transcodeSucceeds then ConvertResult.ok new_file
      else ConvertResult.nonePath
    else ConvertResult.nonePath

/-! ## Model Cache: `ModelManager` -/

/-- The compute device picked by `load_model`
(`"cuda" if torch.cuda.is_available() else "cpu"`). -/
inductive Device where
  | cuda
  | cpu
deriving DecidableEq, Repr

/-- The opaque object returned by `whisper.load_model(model_name, device)`.
We record the identifier it was loaded for and the device it lives on, which
is all the surrounding code observes. -/
structure WModel where
  name : String
  device : Device
deriving DecidableEq, Repr

/-- In-memory state of `ModelManager`: the `loaded_model` slot (a single
Python attribute, `None` or a model) and `current_model_name`. -/
structure ModelManager where
  loaded_model : Option WModel
  current_model_name : Option String
deriving DecidableEq, Repr

/-- `ModelManager.__init__`: both fields start as `None`. -/
def ModelManager.init : ModelManager :=
  { loaded_model := none, current_model_name := none }

/-- Everything one call to `ModelManager.load_model` produces: the state
afterwards, the arguments passed to `progress_callback` in order, whether the
full-load path ran (device selection plus `whisper.load_model`), and the
returned model or the propagated exception message. -/
structure LoadResult where
  state : ModelManager
  progress : List Nat
  fullLoad : Bool
  result : Except String WModel
deriving Repr

/-- The fallthrough branch of `load_model` (main.py lines 124-134):
`progress_callback(0)`, device selection, `whisper.load_model` (which may
raise; `loadOk` is whether it succeeds), the two attribute assignments, and
`progress_callback(100)`.  On an exception the state is unchanged and only
the 0% callback has fired. -/
def ModelManager.fullLoadStep (st : ModelManager) (cudaAvailable loadOk : Bool)
    (model_name : String) : LoadResult :=
  let device := if cudaAvailable then Device.cuda else Device.cpu
  if loadOk then
    let model : WModel := { name := model_name, device := device }
    { state := { loaded_model := some model, current_model_name := some model_name },
      progress := [0, 100],
      fullLoad := true,
      result := Except.ok model }
  else
    { state := st, progress := [0], fullLoad := true,
      result := Except.error "whisper.load_model failed" }

/-- Embedding of `ModelManager.load_model` (main.py lines 120-134).  The
cache-hit guard is `self.loaded_model is not None and self.current_model_name
== model_name`; on a hit the cached model is returned at once, with no
callback invocation and no device selection. -/
def ModelManager.load_model (st : ModelManager) (cudaAvailable loadOk : Bool)
    (model_name : String) : LoadResult :=
  match st.loaded_model with
  | some m =>
    if st.current_model_name = some model_name then
      { state := st, progress := [], fullLoad := false, result := Except.ok m }
    else
      st.fullLoadStep cudaAvailable loadOk model_name
  | none => st.fullLoadStep cudaAvailable loadOk model_name

/-- One `load_model` call described by its environment: CUDA availability,
whether `whisper.load_model` would succeed, and the requested identifier. -/
structure LoadCall where
  cuda : Bool
  ok : Bool
  name : String
deriving DecidableEq, Repr

/-- Run a sequence of `load_model` calls, threading the manager state. -/
def runLoads (st : ModelManager) : List LoadCall → ModelManager
  | [] => st
  | c :: cs => runLoads (st.load_model c.cuda c.ok c.name).state cs

/-- Coherence of the cache state: whenever the slot holds a model, the
`current_model_name` field names exactly that model. -/
def ModelManager.coherent (st : ModelManager) : Prop :=
  ∀ m : WModel, st.loaded_model = some m → st.current_model_name = some m.name

/-! ## Persisted markers: `is_model_downloaded` / `mark_model_as_downloaded` -/

/-- The persisted state: a map from file path to file content, kept as an
association list in which the first binding for a path is the current one. -/
abbrev FS := List (String × String)

/-- Content of the file stored at path `p`, if any (`os.path.exists` is
`(FS.lookup fs p).isSome`). -/
def FS.lookup (fs : FS) (p : String) : Option String :=
  List.lookup p fs

/-- `open(p, "w")` followed by `f.write(c)`: creates or truncates the file at
`p` and leaves content `c`; every other path is untouched. -/
def FS.write (fs : FS) (p c : String) : FS :=
  (p, c) :: fs.filter (fun e => e.1 ≠ p)

/-- `self.cache_folder` as set in `ModelManager.__init__`. -/
def cache_folder : String := "models"

/-- `os.path.join(self.cache_folder, model_name + ".model")`, the marker path
used by both `is_model_downloaded` and `mark_model_as_downloaded`. -/
def markerPath (model_name : String) : String :=
  cache_folder ++ "/" ++ model_name ++ ".model"

/-- Embedding of `ModelManager.is_model_downloaded` (lines 108-112): reports
whether the marker file for `model_name` exists. -/
def is_model_downloaded (fs : FS) (model_name : String) : Bool :=
  (FS.lookup fs (markerPath model_name)).isSome

/-- Embedding of `ModelManager.mark_model_as_downloaded` (lines 114-118):
opens the marker file for writing and writes the string `"downloaded"`. -/
def mark_model_as_downloaded (fs : FS) (model_name : String) : FS :=
  FS.write fs (markerPath model_name) "downloaded"

/-! ## Startup recommendation: `check_recommended_model` -/

/-- What the system probe hands `check_recommended_model`: CUDA availability,
the VRAM figure stored into `specs["vram"]` (GB, after the code's rounding),
the available-RAM figure in GB, and whether the probing calls inside the
`try` block all succeed (`probeOk = false` models an exception being raised
there, which the `except` arm answers with `"tiny"`). -/
structure SysProbe where
  cudaAvailable : Bool
  vram : Rat
  ram_avail : Rat
  probeOk : Bool
deriving DecidableEq, Repr

/-- Embedding of `check_recommended_model` (main.py lines 33-64), restricted
to the recommendation it returns. -/
def check_recommended_model (p : SysProbe) : String :=
  if p.probeOk = false then "tiny"
  else if p.cudaAvailable then
    if 8 ≤ p.vram then "large"
    else if 6 ≤ p.vram then "medium"
    else if 4 ≤ p.vram then "small"
    else "base"
  else
    if 8 ≤ p.ram_avail then "small" else "base"

/-- The decision table exactly as the specification words it: "VRAM≥8→large,
≥6→medium, ≥4→small, else→base (GPU path); no GPU: available-RAM≥8GB→small
else→base; any probing failure→tiny".  Written from the spec, for comparison
with the source-derived `check_recommended_model`. -/
def recommendedTable (gpuVram : Option Rat) (ramAvailGB : Rat)
    (probingFailed : Bool) : String :=
  if probingFailed then "tiny"
  else
    match gpuVram with
    | some v =>
      if 8 ≤ v then "large"
      else if 6 ≤ v then "medium"
      else if 4 ≤ v then "small"
      else "base"
    | none => if 8 ≤ ramAvailGB then "small" else "base"

/-! ## Stall watchdog: `check_progress_stuck` -/

/-- Embedding of `MainWindow.check_progress_stuck` (lines 311-315): the
advisory status message is shown exactly when `time.time() -
self.last_progress_update > 20`.  The method reads nothing else — in
particular it does not consult whether any job is active. -/
def check_progress_stuck (now last_progress_update : Rat) : Bool :=
  decide (20 < now - last_progress_update)

/-- Events seen by the monitor machinery: a progress signal handled by
`on_download_progress` / `on_transcription_progress` (each sets
`self.last_progress_update = time.time()`), or a 1-second `QTimer` tick
running `check_progress_stuck`. -/
inductive MonEvent where
  | progressAt (t : Rat)
  | tickAt (t : Rat)
deriving DecidableEq, Repr

/-- One monitor event applied to (last_progress_update, advisory times so
far). -/
def monitorStep : Rat × List Rat → MonEvent → Rat × List Rat
  | (_, advs), MonEvent.progressAt t => (t, advs)
  | (last, advs), MonEvent.tickAt t =>
    (last, if check_progress_stuck t last then advs ++ [t] else advs)

/-- Run the monitor over a timeline of events, starting from the
`last_progress_update` value `last0` set in `MainWindow.__init__`; returns
the final `last_progress_update` and the times of all advisories shown. -/
def monitorRun (last0 : Rat) (evs : List MonEvent) : Rat × List Rat :=
  evs.foldl monitorStep (last0, [])

/-! ## Download job: `DownloaderThread.run` -/

/-- Signals a `DownloaderThread` can emit: `progressUpdated(int)` and the
terminal `downloadFinished(bool, str)`. -/
inductive DlEvent where
  | progress (p : Nat)
  | downloadFinished (success : Bool) (error : String)
deriving DecidableEq, Repr

/-- Whether a downloader signal is the terminal one. -/
def DlEvent.isTerminal : DlEvent → Bool
  | DlEvent.progress _ => false
  | DlEvent.downloadFinished _ _ => true

/-- Embedding of `DownloaderThread.run` (main.py lines 151-161): emit
progress 0, call `model_manager.load_model` with the callback wired to
`progressUpdated`, then emit `downloadFinished(True, "")`; any exception is
caught and converted to `downloadFinished(False, str(e))`.  Returns the
manager state afterwards and the emitted signals in order. -/
def DownloaderThread.run (st : ModelManager) (cuda loadOk : Bool)
    (model_name : String) : ModelManager × List DlEvent :=
  let r := st.load_model cuda loadOk model_name
  match r.result with
  | Except.ok _ =>
    (r.state,
     DlEvent.progress 0 :: r.progress.map DlEvent.progress
       ++ [DlEvent.downloadFinished true ""])
  | Except.error e =>
    (r.state,
     DlEvent.progress 0 :: r.progress.map DlEvent.progress
       ++ [DlEvent.downloadFinished false e])

/-- The progress percentages a downloader run emits, in order. -/
def dlProgressValues (evs : List DlEvent) : List Nat :=
  evs.filterMap (fun e =>
    match e with
    | DlEvent.progress p => some p
    | _ => none)

/-- Embedding of the persisted effect of `MainWindow.on_download_finished`
(lines 336-348): on success it calls
`model_manager.mark_model_as_downloaded(self.combo_available.currentText())`
— the identifier currently selected in the combo box at completion time, not
the `model_name` the finished thread was constructed with. -/
def on_download_finished (fs : FS) (success : Bool)
    (combo_available_currentText : String) : FS :=
  if success then mark_model_as_downloaded fs combo_available_currentText
  else fs

/-- A Download job end to end: `download_model` starts a `DownloaderThread`
for `selectionAtStart` (the combo text when the button was clicked); each
emitted `downloadFinished` signal is delivered to `on_download_finished`,
which reads the combo text at delivery time (`selectionAtFinish`).  Returns
the filesystem and manager state afterwards. -/
def downloadJobRun (fs : FS) (st : ModelManager) (cuda loadOk : Bool)
    (selectionAtStart selectionAtFinish : String) : FS × ModelManager :=
  let p := DownloaderThread.run st cuda loadOk selectionAtStart
  let fs2 := p.2.foldl
    (fun acc e =>
      match e with
      | DlEvent.downloadFinished s _ => on_download_finished acc s selectionAtFinish
      | _ => acc)
    fs
  (fs2, p.1)

/-! ## Transcribe job: `TranscriptionThread.run`

The body of `run` (main.py lines 177-199) is a straight line of atomic
actions; we index them so that the timing of a concurrent `interrupt()` call
(which just sets `self._is_interrupted = True`) can be expressed as the index
of the first action it precedes:

  0: `progressUpdated.emit(0)`                       (line 180)
  1: `model_manager.load_model(...)` with its callback emissions (line 181)
  2: `progressUpdated.emit(100)`                     (line 183)
  3: the read of `self._is_interrupted`              (line 184)
  4: `progressUpdated.emit(50)`                      (line 189)
  5: `model.transcribe(...)`                         (line 192)
  6: `progressUpdated.emit(100)`                     (line 194)
  7: the terminal emission                           (lines 196/185/199)

`interruptAt = some k` means the flag becomes `True` before action `k`
executes; `none` means `interrupt()` is never called. -/

/-- Signals a `TranscriptionThread` can emit: `progressUpdated(int)` and the
two terminals `transcriptionFinished(str)` / `errorOccurred(str)`. -/
inductive TrEvent where
  | progress (p : Nat)
  | transcriptionFinished (text : String)
  | errorOccurred (error : String)
deriving DecidableEq, Repr

/-- Whether a transcription signal is a terminal one. -/
def TrEvent.isTerminal : TrEvent → Bool
  | TrEvent.progress _ => false
  | TrEvent.transcriptionFinished _ => true
  | TrEvent.errorOccurred _ => true

/-- Index of the single read of `_is_interrupted` in the action numbering
above. -/
def interruptCheckIdx : Nat := 3

/-- Index of the `model.transcribe` invocation — where inference begins — in
the action numbering above. -/
def transcribeIdx : Nat := 5

/-- The message emitted when the interrupt check fires (line 185). -/
def interruptedMsg : String := "Trascrizione interrotta."

/-- Embedding of `TranscriptionThread.run`.  `transcribeRes` is the opaque
recognizer's outcome (`ok text` for `result.get("text", "")`, `error e` for a
raised exception); `interruptAt` is the interrupt timing as described above.
Returns the manager state, the emitted signals in order, and whether
`model.transcribe` was invoked. -/
def TranscriptionThread.run (st : ModelManager) (cuda loadOk : Bool)
    (transcribeRes : Except String String) (interruptAt : Option Nat)
    (model_name : String) : ModelManager × List TrEvent × Bool :=
  let r := st.load_model cuda loadOk model_name
  match r.result with
  | Except.error e =>
    (r.state,
     TrEvent.progress 0 :: r.progress.map TrEvent.progress
       ++ [TrEvent.errorOccurred e],
     false)
  | Except.ok _ =>
    let flagAtCheck :=
      match interruptAt with
      | none => false
      | some k => decide (k ≤ interruptCheckIdx)
    if flagAtCheck then
      (r.state,
       TrEvent.progress 0 :: r.progress.map TrEvent.progress
         ++ [TrEvent.progress 100, TrEvent.errorOccurred interruptedMsg],
       false)
    else
      match transcribeRes with
      | Except.ok text =>
        (r.state,
         TrEvent.progress 0 :: r.progress.map TrEvent.progress
           ++ [TrEvent.progress 100, TrEvent.progress 50, TrEvent.progress 100,
               TrEvent.transcriptionFinished text],
         true)
      | Except.error e =>
        (r.state,
         TrEvent.progress 0 :: r.progress.map TrEvent.progress
           ++ [TrEvent.progress 100, TrEvent.progress 50,
               TrEvent.errorOccurred e],
         true)

/-- The progress percentages a transcription run emits, in order. -/
def trProgressValues (evs : List TrEvent) : List Nat :=
  evs.filterMap (fun e =>
    match e with
    | TrEvent.progress p => some p
    | _ => none)

/-- A signal list ends with exactly one terminal event: the last event is
terminal and no other event is. -/
def uniqueTerminalLast {α : Type} (isT : α → Bool) (evs : List α) : Prop :=
  ∃ pre t, evs = pre ++ [t] ∧ isT t = true ∧ ∀ e ∈ pre, isT e = false

/-- Executable check that a list of percentages is non-decreasing. -/
def nonDecreasing : List Nat → Bool
  | [] => true
  | [_] => true
  | a :: b :: rest => decide (a ≤ b) && nonDecreasing (b :: rest)

/-! ## Helper lemmas -/

/-- Looking a key up after filtering out a different key changes nothing. -/
lemma lookup_filter_ne (l : FS) (p q : String) (h : q ≠ p) :
    List.lookup q (l.filter (fun e => e.1 ≠ p)) = List.lookup q l := by
  induction l with
  | nil => rfl
  | cons hd tl ih =>
    rcases hd with ⟨k, v⟩
    simp only [List.filter_cons]
    by_cases hk : k = p
    · subst hk
      rw [if_neg (by simp), ih, List.lookup_cons, beq_false_of_ne h]
    · rw [if_pos (by simp [hk]), List.lookup_cons, List.lookup_cons]
      by_cases hq : q = k
      · subst hq
        simp
      · rw [beq_false_of_ne hq]
        exact ih

/-! ## C8: startup recommendation decision table -/

/-- C8: the startup recommendation computes exactly the spec's decision
table: with a GPU, VRAM≥8→large, ≥6→medium, ≥4→small, else base; with no
GPU, available RAM≥8GB→small else base; any probing failure→tiny. -/
theorem C8_recommendation_matches_table (p : SysProbe) :
    check_recommended_model p =
      recommendedTable (if p.cudaAvailable then some p.vram else none)
        p.ram_avail (!p.probeOk) := by
  rcases p with ⟨c, v, ra, ok⟩
  cases c <;> cases ok <;>
    simp [check_recommended_model, recommendedTable]

/-! ## C10: transcoder presence is checked before extension classification -/

/-- C10: `convert_file_if_needed` checks for ffmpeg before classifying the
extension, so with the tool absent every input fails with the missing-tool
error — including audio inputs that, with the tool present, are returned
unchanged without any transcoding. -/
theorem C10_tool_checked_first (ts : Bool) (p : String) :
    convert_file_if_needed false ts p = ConvertResult.toolMissing ∧
    (strLower (splitext p).2 ∈ audio_ext →
      convert_file_if_needed true ts p = ConvertResult.ok p) := by
  constructor
  · rfl
  · intro h
    simp [convert_file_if_needed, h]

/-- Witness for C10 at the concrete audio input `voice.wav`. -/
theorem C10_witness :
    convert_file_if_needed false true "voice.wav" = ConvertResult.toolMissing ∧
    convert_file_if_needed true true "voice.wav" = ConvertResult.ok "voice.wav" :=
  ⟨(C10_tool_checked_first true "voice.wav").1,
   (C10_tool_checked_first true "voice.wav").2 (by decide)⟩

/-! ## C4: normalizer failure outcomes -/

/-- C4 counterexample: an unknown-extension input and a failed video
transcode produce the very same value (Python `None`), so the two failure
modes are not distinguishable by the caller, contrary to the claim. -/
theorem C4_counterexample :
    convert_file_if_needed true true "clip.xyz" =
      convert_file_if_needed true false "clip.mp4" ∧
    convert_file_if_needed true true "clip.xyz" = ConvertResult.nonePath :=
  ⟨rfl, rfl⟩

/-- C4 amended: unknown extensions and failed transcodes both yield `None`
(mutually indistinguishable), while a missing transcoder raises
`FileNotFoundError`, which is distinguishable from `None`. -/
theorem C4_failure_values (p : String) (ts : Bool) :
    (strLower (splitext p).2 ∉ audio_ext → strLower (splitext p).2 ∉ video_ext →
      convert_file_if_needed true ts p = ConvertResult.nonePath) ∧
    (strLower (splitext p).2 ∈ video_ext →
      convert_file_if_needed true false p = ConvertResult.nonePath) ∧
    ConvertResult.nonePath ≠ ConvertResult.toolMissing := by
  refine ⟨fun h1 h2 => ?_, fun h => ?_, by decide⟩
  · simp [convert_file_if_needed, h1, h2]
  · have h1 : strLower (splitext p).2 ∉ audio_ext := by
      simp only [video_ext, List.mem_cons, List.not_mem_nil, or_false] at h
      rcases h with h | h | h | h <;> rw [h] <;> decide
    simp [convert_file_if_needed, h1, h]

/-- Witness for C4 amended at the concrete inputs `clip.xyz` and
`clip.mp4`. -/
theorem C4_failure_values_witness :
    convert_file_if_needed true true "clip.xyz" = ConvertResult.nonePath ∧
    convert_file_if_needed true false "clip.mp4" = ConvertResult.nonePath :=
  ⟨(C4_failure_values "clip.xyz" true).1 (by decide) (by decide),
   (C4_failure_values "clip.mp4" true).2.1 (by decide)⟩

/-! ## C7: the persisted marker -/

/-- C7 counterexample: the marker file written for an identifier has content
`"downloaded"`, ten bytes, not the zero-byte content the claim states. -/
theorem C7_counterexample :
    FS.lookup (mark_model_as_downloaded [] "base") (markerPath "base")
      = some "downloaded" ∧
    ("downloaded" : String).length ≠ 0 :=
  ⟨rfl, by decide⟩

/-- C7 amended: marking X writes exactly one file, `models/X.model`, with
content the string `"downloaded"`; every other path is untouched; and
`is_model_downloaded` reports exactly the presence of that file. -/
theorem C7_marker_file (fs : FS) (name q : String) :
    FS.lookup (mark_model_as_downloaded fs name) (markerPath name)
      = some "downloaded" ∧
    (q ≠ markerPath name →
      FS.lookup (mark_model_as_downloaded fs name) q = FS.lookup fs q) ∧
    is_model_downloaded fs name = (FS.lookup fs (markerPath name)).isSome := by
  refine ⟨?_, fun h => ?_, rfl⟩
  · simp [mark_model_as_downloaded, FS.write, FS.lookup]
  · simp only [mark_model_as_downloaded, FS.write, FS.lookup, List.lookup_cons]
    rw [beq_false_of_ne h]
    exact lookup_filter_ne fs (markerPath name) q h

/-- Witness for C7 amended at a concrete filesystem and paths. -/
theorem C7_marker_file_witness :
    FS.lookup (mark_model_as_downloaded [] "base") (markerPath "base")
      = some "downloaded" ∧
    FS.lookup (mark_model_as_downloaded [] "base") "models/tiny.model"
      = FS.lookup ([] : FS) "models/tiny.model" :=
  ⟨(C7_marker_file [] "base" "models/tiny.model").1,
   (C7_marker_file [] "base" "models/tiny.model").2.1 (by decide)⟩

/-! ## C3: stall watchdog -/

/-- C3 counterexample: with `last_progress_update = 0` and ticks at 21 s and
22 s — a single threshold crossing, no fresh progress, no job needed — the
advisory is shown twice, not at most once. -/
theorem C3_counterexample :
    ¬ ((monitorRun 0 [MonEvent.tickAt 21, MonEvent.tickAt 22]).2.length ≤ 1) := by
  have h1 : check_progress_stuck 21 0 = true := by
    simp only [check_progress_stuck, decide_eq_true_eq]
    norm_num
  have h2 : check_progress_stuck 22 0 = true := by
    simp only [check_progress_stuck, decide_eq_true_eq]
    norm_num
  simp [monitorRun, monitorStep, h1, h2]

/-- Applying `monitorStep` to a tick, spelled out on a pair. -/
lemma monitorStep_tick (s : Rat × List Rat) (t : Rat) :
    monitorStep s (MonEvent.tickAt t) =
      (s.1, if check_progress_stuck t s.1 then s.2 ++ [t] else s.2) := by
  rcases s with ⟨l, a⟩
  rfl

/-- C3 amended: at every 1-second tick the advisory is shown exactly when
more than 20 s have elapsed since the last progress event — independent of
job activity (the method reads nothing else) and re-shown at every further
qualifying tick rather than once per threshold crossing. -/
theorem C3_advisory_every_qualifying_tick (last0 : Rat) (evs : List MonEvent)
    (t : Rat) :
    (monitorRun last0 (evs ++ [MonEvent.tickAt t])).2 =
      (monitorRun last0 evs).2 ++
        (if 20 < t - (monitorRun last0 evs).1 then [t] else []) := by
  unfold monitorRun
  rw [List.foldl_append, List.foldl_cons, List.foldl_nil, monitorStep_tick]
  simp only [check_progress_stuck, decide_eq_true_eq]
  split
  · next hc => simp [if_pos hc]
  · next hc => simp [if_neg hc]

/-! ## Model cache lemmas, C2 and C9 -/

/-- On a cache hit (`loaded_model` is not `None` and `current_model_name`
equals the request) `load_model` returns the cached model at once: state
unchanged, no callback invocation, no full load. -/
lemma load_model_cache_hit (st : ModelManager) (cuda ok : Bool) (name : String)
    (m : WModel) (h1 : st.loaded_model = some m)
    (h2 : st.current_model_name = some name) :
    st.load_model cuda ok name =
      { state := st, progress := [], fullLoad := false,
        result := Except.ok m } := by
  simp [ModelManager.load_model, h1, h2]

/-- After a `load_model` call whose `whisper.load_model` would succeed, the
slot holds a model and `current_model_name` is the requested identifier. -/
lemma load_model_ok_state (st : ModelManager) (cuda : Bool) (name : String) :
    ∃ m : WModel,
      (st.load_model cuda true name).state.loaded_model = some m ∧
      (st.load_model cuda true name).state.current_model_name = some name := by
  rcases st with ⟨lm, cn⟩
  cases lm with
  | none =>
    exact ⟨{ name := name, device := if cuda then Device.cuda else Device.cpu },
      rfl, rfl⟩
  | some m =>
    by_cases h : cn = some name
    · refine ⟨m, ?_, ?_⟩
      · rw [load_model_cache_hit ⟨some m, cn⟩ cuda true name m rfl h]
      · rw [load_model_cache_hit ⟨some m, cn⟩ cuda true name m rfl h]
        simpa using h
    · refine ⟨{ name := name, device := if cuda then Device.cuda else Device.cpu },
        ?_, ?_⟩ <;>
        simp [ModelManager.load_model, ModelManager.fullLoadStep, h]

/-- C2 amended: a call to `load(X)` while X is the currently loaded model is
the cache-hit fast path — it returns the cached model immediately, performs
no device selection or weight loading, leaves the state unchanged, and
invokes the progress callback zero times (it does not report the 0% and 100%
milestones); hence of two consecutive `load(X)` calls only the first can
perform a full load, the second emitting no progress events. -/
theorem C2_second_load_is_cache_hit (st : ModelManager)
    (cuda cuda2 ok2 : Bool) (name : String) :
    ∃ m : WModel,
      (st.load_model cuda true name).state.loaded_model = some m ∧
      ((st.load_model cuda true name).state.load_model cuda2 ok2 name) =
        { state := (st.load_model cuda true name).state, progress := [],
          fullLoad := false, result := Except.ok m } := by
  obtain ⟨m, h1, h2⟩ := load_model_ok_state st cuda name
  exact ⟨m, h1, load_model_cache_hit _ cuda2 ok2 name m h1 h2⟩

/-- C2 counterexample: starting from the empty cache, `load("base")` performs
a full load reporting 0% then 100%, but the immediately following
`load("base")` invokes the progress callback not at all — the claim's "still
reports the two bounding progress milestones 0% and 100%" fails. -/
theorem C2_counterexample :
    (ModelManager.init.load_model false true "base").progress = [0, 100] ∧
    ((ModelManager.init.load_model false true "base").state.load_model
        false true "base").progress = [] ∧
    ([] : List Nat) ≠ [0, 100] :=
  ⟨rfl, rfl, by decide⟩

/-- Coherence is preserved by every `load_model` call. -/
lemma load_model_full_ok (cn : Option String) (lm : Option WModel)
    (cuda : Bool) (name : String) (hmiss : lm = none ∨ cn ≠ some name) :
    ((⟨lm, cn⟩ : ModelManager).load_model cuda true name) =
      { state := ⟨some { name := name,
                         device := if cuda then Device.cuda else Device.cpu },
                  some name⟩,
        progress := [0, 100], fullLoad := true,
        result := Except.ok { name := name,
                              device := if cuda then Device.cuda else Device.cpu } } := by
  cases lm with
  | none => rfl
  | some m0 =>
    rcases hmiss with h | h
    · exact absurd h (by simp)
    · simp [ModelManager.load_model, ModelManager.fullLoadStep, h]

/-- A full load whose `whisper.load_model` raises leaves the state unchanged
and propagates the error after the lone 0% callback. -/
lemma load_model_full_fail (cn : Option String) (lm : Option WModel)
    (cuda : Bool) (name : String) (hmiss : lm = none ∨ cn ≠ some name) :
    ((⟨lm, cn⟩ : ModelManager).load_model cuda false name) =
      { state := ⟨lm, cn⟩, progress := [0], fullLoad := true,
        result := Except.error "whisper.load_model failed" } := by
  cases lm with
  | none => rfl
  | some m0 =>
    rcases hmiss with h | h
    · exact absurd h (by simp)
    · simp [ModelManager.load_model, ModelManager.fullLoadStep, h]

/-- Coherence is preserved by every `load_model` call. -/
lemma coherent_load (st : ModelManager) (cuda ok : Bool) (name : String)
    (h : st.coherent) : ((st.load_model cuda ok name).state).coherent := by
  rcases st with ⟨lm, cn⟩
  by_cases hc : lm ≠ none ∧ cn = some name
  · obtain ⟨m0, hm0⟩ := Option.ne_none_iff_exists'.mp hc.1
    rw [load_model_cache_hit ⟨lm, cn⟩ cuda ok name m0 hm0 hc.2]
    exact h
  · have hmiss : lm = none ∨ cn ≠ some name := by
      by_cases h1 : lm = none
      · exact Or.inl h1
      · exact Or.inr fun h2 => hc ⟨h1, h2⟩
    cases ok with
    | false =>
      rw [load_model_full_fail cn lm cuda name hmiss]
      exact h
    | true =>
      rw [load_model_full_ok cn lm cuda name hmiss]
      intro m hm
      injection hm with h'
      subst h'
      rfl

/-- Coherence is preserved by every sequence of `load_model` calls. -/
lemma runLoads_coherent (calls : List LoadCall) (st : ModelManager)
    (h : st.coherent) : (runLoads st calls).coherent := by
  induction calls generalizing st with
  | nil => exact h
  | cons c cs ih => exact ih _ (coherent_load st c.cuda c.ok c.name h)

/-- The initial manager state is coherent. -/
lemma init_coherent : ModelManager.init.coherent := by
  intro m hm
  cases hm

/-- A `load_model` call on a coherent state that returns `ok m` leaves the
slot holding exactly `m`, records the requested identifier, and `m` is the
model for that identifier. -/
lemma load_model_ok_result (st : ModelManager) (cuda ok : Bool) (name : String)
    (m : WModel) (hc : st.coherent)
    (h : (st.load_model cuda ok name).result = Except.ok m) :
    (st.load_model cuda ok name).state.loaded_model = some m ∧
    (st.load_model cuda ok name).state.current_model_name = some name ∧
    m.name = name := by
  rcases st with ⟨lm, cn⟩
  by_cases hcc : lm ≠ none ∧ cn = some name
  · obtain ⟨m0, hm0⟩ := Option.ne_none_iff_exists'.mp hcc.1
    rw [load_model_cache_hit ⟨lm, cn⟩ cuda ok name m0 hm0 hcc.2] at h ⊢
    injection h with h'
    subst h'
    have hcoh := hc m0 hm0
    rw [hcc.2] at hcoh
    injection hcoh with h2
    exact ⟨hm0, hcc.2, h2.symm⟩
  · have hmiss : lm = none ∨ cn ≠ some name := by
      by_cases h1 : lm = none
      · exact Or.inl h1
      · exact Or.inr fun h2 => hcc ⟨h1, h2⟩
    cases ok with
    | false =>
      rw [load_model_full_fail cn lm cuda name hmiss] at h
      exact absurd h (by simp)
    | true =>
      rw [load_model_full_ok cn lm cuda name hmiss] at h ⊢
      injection h with h'
      subst h'
      exact ⟨rfl, rfl, rfl⟩

/-- C9: for any sequence of `load` calls from the initial state, the cache
holds at most one loaded model; whenever the slot is occupied the recorded
identifier is that model's; and any further `load` returning a model leaves
slot and identifier referring exactly to the model just requested — the
single most recently loaded one. -/
theorem C9_single_model_slot (calls : List LoadCall) :
    (∀ m m' : WModel,
      (runLoads ModelManager.init calls).loaded_model = some m →
      (runLoads ModelManager.init calls).loaded_model = some m' → m = m') ∧
    (∀ m : WModel, (runLoads ModelManager.init calls).loaded_model = some m →
      (runLoads ModelManager.init calls).current_model_name = some m.name) ∧
    (∀ (cuda ok : Bool) (name : String) (m : WModel),
      ((runLoads ModelManager.init calls).load_model cuda ok name).result
          = Except.ok m →
      ((runLoads ModelManager.init calls).load_model cuda ok name).state.loaded_model
          = some m ∧
      ((runLoads ModelManager.init calls).load_model cuda ok name).state.current_model_name
          = some name ∧
      m.name = name) := by
  have hcoh : (runLoads ModelManager.init calls).coherent :=
    runLoads_coherent calls ModelManager.init init_coherent
  refine ⟨fun m m' hm hm' => ?_, hcoh, fun cuda ok name m h => ?_⟩
  · rw [hm] at hm'
    exact Option.some.inj hm'
  · exact load_model_ok_result _ cuda ok name m hcoh h

/-- Witness for C9 at the single concrete call `load("base")` from the
initial state. -/
theorem C9_single_model_slot_witness :
    (ModelManager.init.load_model false true "base").state.loaded_model
        = some { name := "base", device := Device.cpu } ∧
    (ModelManager.init.load_model false true "base").state.current_model_name
        = some "base" := by
  have h := (C9_single_model_slot []).2.2 false true "base"
    { name := "base", device := Device.cpu } rfl
  exact ⟨h.1, h.2.1⟩

/-! ## Event-sequence lemmas, C1 and C6 -/

/-- A missed cache in contrapositive form. -/
lemma miss_of_not_hit (lm : Option WModel) (cn : Option String) (name : String)
    (h : ¬ (lm ≠ none ∧ cn = some name)) : lm = none ∨ cn ≠ some name := by
  by_cases h1 : lm = none
  · exact Or.inl h1
  · exact Or.inr fun h2 => h ⟨h1, h2⟩

/-- The three shapes of a `load_model` call: cache hit (no callbacks,
success), full load (callbacks 0 then 100, success), failed load (callback 0,
error). -/
lemma load_model_progress_shape (st : ModelManager) (cuda ok : Bool)
    (name : String) :
    ((st.load_model cuda ok name).progress = [] ∧
      ∃ m, (st.load_model cuda ok name).result = Except.ok m) ∨
    ((st.load_model cuda ok name).progress = [0, 100] ∧
      ∃ m, (st.load_model cuda ok name).result = Except.ok m) ∨
    ((st.load_model cuda ok name).progress = [0] ∧
      ∃ e, (st.load_model cuda ok name).result = Except.error e) := by
  rcases st with ⟨lm, cn⟩
  by_cases hcc : lm ≠ none ∧ cn = some name
  · obtain ⟨m0, hm0⟩ := Option.ne_none_iff_exists'.mp hcc.1
    rw [load_model_cache_hit ⟨lm, cn⟩ cuda ok name m0 hm0 hcc.2]
    exact Or.inl ⟨rfl, m0, rfl⟩
  · cases ok with
    | false =>
      rw [load_model_full_fail cn lm cuda name (miss_of_not_hit lm cn name hcc)]
      exact Or.inr (Or.inr ⟨rfl, _, rfl⟩)
    | true =>
      rw [load_model_full_ok cn lm cuda name (miss_of_not_hit lm cn name hcc)]
      exact Or.inr (Or.inl ⟨rfl, _, rfl⟩)

/-- With a succeeding `whisper.load_model`, `load_model` always returns a
model. -/
lemma load_model_true_ok (st : ModelManager) (cuda : Bool) (name : String) :
    ∃ m, (st.load_model cuda true name).result = Except.ok m := by
  rcases load_model_progress_shape st cuda true name with ⟨_, hm⟩ | ⟨_, hm⟩ | ⟨_, e, he⟩
  · exact hm
  · exact hm
  · rcases st with ⟨lm, cn⟩
    by_cases hcc : lm ≠ none ∧ cn = some name
    · obtain ⟨m0, hm0⟩ := Option.ne_none_iff_exists'.mp hcc.1
      rw [load_model_cache_hit ⟨lm, cn⟩ cuda true name m0 hm0 hcc.2] at he
      exact absurd he (by simp)
    · rw [load_model_full_ok cn lm cuda name (miss_of_not_hit lm cn name hcc)] at he
      exact absurd he (by simp)

/-- Exhibiting `uniqueTerminalLast` from an explicit decomposition. -/
lemma uniqueTerminalLast_build {α : Type} (isT : α → Bool) (pre : List α)
    (t : α) (hpre : ∀ e ∈ pre, isT e = false) (ht : isT t = true) :
    uniqueTerminalLast isT (pre ++ [t]) :=
  ⟨pre, t, rfl, ht, hpre⟩

/-- C1 counterexample: a successful, uninterrupted Transcribe run starting
from the empty cache emits the progress sequence 0, 0, 100, 100, 50, 100 —
the model-ready 100% precedes the pre-inference 50%, so the sequence is not
monotonically non-decreasing as the claim states. -/
theorem C1_counterexample :
    trProgressValues (TranscriptionThread.run ModelManager.init false true
        (Except.ok "testo") none "base").2.1 = [0, 0, 100, 100, 50, 100] ∧
    nonDecreasing [0, 0, 100, 100, 50, 100] = false := by
  exact ⟨rfl, by decide⟩

/-- C1 amended: per run, a Download job's progress percentages are
monotonically non-decreasing and it emits exactly one terminal event,
strictly after every progress event, with nothing after it; a Transcribe job
likewise emits exactly one terminal event last, but its progress sequence is
not in general non-decreasing (the post-load 100% milestone precedes the 50%
pre-inference milestone). -/
theorem C1_progress_and_terminal (st st2 : ModelManager)
    (cuda ok cuda2 ok2 : Bool) (name name2 : String)
    (tres : Except String String) (intr : Option Nat) :
    nonDecreasing
      (dlProgressValues (DownloaderThread.run st cuda ok name).2) = true ∧
    uniqueTerminalLast DlEvent.isTerminal
      (DownloaderThread.run st cuda ok name).2 ∧
    uniqueTerminalLast TrEvent.isTerminal
      (TranscriptionThread.run st2 cuda2 ok2 tres intr name2).2.1 := by
  refine ⟨?_, ?_, ?_⟩
  · rcases load_model_progress_shape st cuda ok name with
      ⟨hP, m, hres⟩ | ⟨hP, m, hres⟩ | ⟨hP, e, hres⟩ <;>
      · simp [DownloaderThread.run, hres, hP, dlProgressValues, nonDecreasing]
  · rcases load_model_progress_shape st cuda ok name with
      ⟨hP, m, hres⟩ | ⟨hP, m, hres⟩ | ⟨hP, e, hres⟩
    · have hev : (DownloaderThread.run st cuda ok name).2 =
          [DlEvent.progress 0, DlEvent.downloadFinished true ""] := by
        simp [DownloaderThread.run, hres, hP]
      rw [hev]
      exact uniqueTerminalLast_build DlEvent.isTerminal [DlEvent.progress 0]
        (DlEvent.downloadFinished true "") (by decide) rfl
    · have hev : (DownloaderThread.run st cuda ok name).2 =
          [DlEvent.progress 0, DlEvent.progress 0, DlEvent.progress 100,
           DlEvent.downloadFinished true ""] := by
        simp [DownloaderThread.run, hres, hP]
      rw [hev]
      exact uniqueTerminalLast_build DlEvent.isTerminal
        [DlEvent.progress 0, DlEvent.progress 0, DlEvent.progress 100]
        (DlEvent.downloadFinished true "") (by decide) rfl
    · have hev : (DownloaderThread.run st cuda ok name).2 =
          [DlEvent.progress 0, DlEvent.progress 0,
           DlEvent.downloadFinished false e] := by
        simp [DownloaderThread.run, hres, hP]
      rw [hev]
      exact uniqueTerminalLast_build DlEvent.isTerminal
        [DlEvent.progress 0, DlEvent.progress 0]
        (DlEvent.downloadFinished false e) (by decide) rfl
  · rcases load_model_progress_shape st2 cuda2 ok2 name2 with
      ⟨hP, m, hres⟩ | ⟨hP, m, hres⟩ | ⟨hP, e, hres⟩
    · cases hflag : (match intr with
        | none => false
        | some k => decide (k ≤ interruptCheckIdx)) with
      | true =>
        have hev : (TranscriptionThread.run st2 cuda2 ok2 tres intr name2).2.1 =
            [TrEvent.progress 0, TrEvent.progress 100,
             TrEvent.errorOccurred interruptedMsg] := by
          simp [TranscriptionThread.run, hres, hP, hflag]
        rw [hev]
        exact uniqueTerminalLast_build TrEvent.isTerminal
          [TrEvent.progress 0, TrEvent.progress 100]
          (TrEvent.errorOccurred interruptedMsg) (by decide) rfl
      | false =>
        cases tres with
        | ok text =>
          have hev : (TranscriptionThread.run st2 cuda2 ok2
              (Except.ok text) intr name2).2.1 =
              [TrEvent.progress 0, TrEvent.progress 100, TrEvent.progress 50,
               TrEvent.progress 100, TrEvent.transcriptionFinished text] := by
            simp [TranscriptionThread.run, hres, hP, hflag]
          rw [hev]
          exact uniqueTerminalLast_build TrEvent.isTerminal
            [TrEvent.progress 0, TrEvent.progress 100, TrEvent.progress 50,
             TrEvent.progress 100]
            (TrEvent.transcriptionFinished text) (by decide) rfl
        | error e2 =>
          have hev : (TranscriptionThread.run st2 cuda2 ok2
              (Except.error e2) intr name2).2.1 =
              [TrEvent.progress 0, TrEvent.progress 100, TrEvent.progress 50,
               TrEvent.errorOccurred e2] := by
            simp [TranscriptionThread.run, hres, hP, hflag]
          rw [hev]
          exact uniqueTerminalLast_build TrEvent.isTerminal
            [TrEvent.progress 0, TrEvent.progress 100, TrEvent.progress 50]
            (TrEvent.errorOccurred e2) (by decide) rfl
    · cases hflag : (match intr with
        | none => false
        | some k => decide (k ≤ interruptCheckIdx)) with
      | true =>
        have hev : (TranscriptionThread.run st2 cuda2 ok2 tres intr name2).2.1 =
            [TrEvent.progress 0, TrEvent.progress 0, TrEvent.progress 100,
             TrEvent.progress 100, TrEvent.errorOccurred interruptedMsg] := by
          simp [TranscriptionThread.run, hres, hP, hflag]
        rw [hev]
        exact uniqueTerminalLast_build TrEvent.isTerminal
          [TrEvent.progress 0, TrEvent.progress 0, TrEvent.progress 100,
           TrEvent.progress 100]
          (TrEvent.errorOccurred interruptedMsg) (by decide) rfl
      | false =>
        cases tres with
        | ok text =>
          have hev : (TranscriptionThread.run st2 cuda2 ok2
              (Except.ok text) intr name2).2.1 =
              [TrEvent.progress 0, TrEvent.progress 0, TrEvent.progress 100,
               TrEvent.progress 100, TrEvent.progress 50, TrEvent.progress 100,
               TrEvent.transcriptionFinished text] := by
            simp [TranscriptionThread.run, hres, hP, hflag]
          rw [hev]
          exact uniqueTerminalLast_build TrEvent.isTerminal
            [TrEvent.progress 0, TrEvent.progress 0, TrEvent.progress 100,
             TrEvent.progress 100, TrEvent.progress 50, TrEvent.progress 100]
            (TrEvent.transcriptionFinished text) (by decide) rfl
        | error e2 =>
          have hev : (TranscriptionThread.run st2 cuda2 ok2
              (Except.error e2) intr name2).2.1 =
              [TrEvent.progress 0, TrEvent.progress 0, TrEvent.progress 100,
               TrEvent.progress 100, TrEvent.progress 50,
               TrEvent.errorOccurred e2] := by
            simp [TranscriptionThread.run, hres, hP, hflag]
          rw [hev]
          exact uniqueTerminalLast_build TrEvent.isTerminal
            [TrEvent.progress 0, TrEvent.progress 0, TrEvent.progress 100,
             TrEvent.progress 100, TrEvent.progress 50]
            (TrEvent.errorOccurred e2) (by decide) rfl
    · have hev : (TranscriptionThread.run st2 cuda2 ok2 tres intr name2).2.1 =
          [TrEvent.progress 0, TrEvent.progress 0, TrEvent.errorOccurred e] := by
        simp [TranscriptionThread.run, hres, hP]
      rw [hev]
      exact uniqueTerminalLast_build TrEvent.isTerminal
        [TrEvent.progress 0, TrEvent.progress 0]
        (TrEvent.errorOccurred e) (by decide) rfl

/-- C6 counterexample: with the interrupt flag set at step 4 — after the
single interrupt check but strictly before `model.transcribe` runs, so
"before inference begins" — the recognizer is nonetheless invoked and the
run ends in a normal success, not in the interrupted failure the claim
requires. -/
theorem C6_counterexample :
    4 < transcribeIdx ∧
    (TranscriptionThread.run ModelManager.init false true (Except.ok "testo")
        (some 4) "base").2.2 = true ∧
    (TranscriptionThread.run ModelManager.init false true (Except.ok "testo")
        (some 4) "base").2.1.getLast? =
      some (TrEvent.transcriptionFinished "testo") := by
  exact ⟨by decide, rfl, rfl⟩

/-- C6 amended: for a Transcribe run whose model load succeeds, setting the
interrupt flag at or before the single interrupt check (the step after the
model-ready 100% milestone) makes the job end with the
`"Trascrizione interrotta."` failure and never invokes the recognizer;
setting it at any later step has no observable effect at all — the run is
identical to an uninterrupted one. -/
theorem C6_interrupt_boundary (st : ModelManager) (cuda loadOk : Bool)
    (tres : Except String String) (k : Nat) (name : String) :
    (k ≤ interruptCheckIdx → loadOk = true →
      (TranscriptionThread.run st cuda loadOk tres (some k) name).2.2 = false ∧
      ∃ pre, (TranscriptionThread.run st cuda loadOk tres (some k) name).2.1 =
        pre ++ [TrEvent.errorOccurred interruptedMsg]) ∧
    (interruptCheckIdx < k →
      TranscriptionThread.run st cuda loadOk tres (some k) name =
        TranscriptionThread.run st cuda loadOk tres none name) := by
  constructor
  · intro hk hok
    subst hok
    obtain ⟨m, hres⟩ := load_model_true_ok st cuda name
    have hflag : (decide (k ≤ interruptCheckIdx)) = true := by
      simpa using hk
    refine ⟨?_, TrEvent.progress 0 ::
      (st.load_model cuda true name).progress.map TrEvent.progress
        ++ [TrEvent.progress 100], ?_⟩ <;>
      simp [TranscriptionThread.run, hres, hflag]
  · intro hk
    have hflag : (decide (k ≤ interruptCheckIdx)) = false := by
      simpa using Nat.not_le.mpr hk
    simp [TranscriptionThread.run, hflag]

/-- Witness for C6 amended at interrupt steps 0 (before the check) and 6
(after the check), starting from the empty cache. -/
theorem C6_interrupt_boundary_witness :
    (TranscriptionThread.run ModelManager.init false true (Except.ok "testo")
        (some 0) "base").2.2 = false ∧
    TranscriptionThread.run ModelManager.init false true (Except.ok "testo")
        (some 6) "base" =
      TranscriptionThread.run ModelManager.init false true (Except.ok "testo")
        none "base" :=
  ⟨((C6_interrupt_boundary ModelManager.init false true (Except.ok "testo")
      0 "base").1 (by decide) rfl).1,
   (C6_interrupt_boundary ModelManager.init false true (Except.ok "testo")
      6 "base").2 (by decide)⟩

/-! ## C5: which identifier gets marked as downloaded -/

/-- C5: evaluating the Download flow at the failing input.  A Download job is
started for `"base"` (the combo selection at click time) and succeeds; by
completion time the combo selection has changed to `"small"`.  The handler
marks `"small"` — never downloaded — while `"base"`, which the thread
actually downloaded and loaded (the manager ends holding `"base"`), is left
unmarked.  With the selection unchanged, the downloaded identifier itself is
marked, as the claim expects. -/
theorem C5_marks_selection_not_download :
    is_model_downloaded
      (downloadJobRun [] ModelManager.init false true "base" "small").1
      "base" = false ∧
    is_model_downloaded
      (downloadJobRun [] ModelManager.init false true "base" "small").1
      "small" = true ∧
    (downloadJobRun [] ModelManager.init false true "base" "small").2.current_model_name
      = some "base" ∧
    is_model_downloaded
      (downloadJobRun [] ModelManager.init false true "base" "base").1
      "base" = true := by
  exact ⟨rfl, rfl, rfl, rfl⟩

end Wipsher
